import Mathlib

/-!
Verification of the interactive Gantt-chart dashboard (files `app.py` and
`main.py`).  The repository contains two variants of the same Dash
application; their date arithmetic (`calcular_datas`), schedule-update
callback (`update_task_dates`) and CSV validation (`load_schedule_data`)
are identical, while the click callback (`store_selected_task`) and the
chart-highlight logic (`update_gantt_chart`) differ, so those are embedded
once per variant in the namespaces `App` (app.py) and `Main` (main.py).

Modelling conventions:
  * A calendar timestamp is a day number (an `Int`).  `daysFromCivil`
    converts a proleptic-Gregorian date `y-m-d` to its day number so that
    concrete dates appearing in the sources can be written down exactly.
    All timestamps manipulated by the program are midnight-aligned, so day
    granularity is faithful.
  * A pandas `DataFrame` holding the schedule is a `List Task`; its
    `RangeIndex` label for a row is the row's position in the list (the
    sources never reorder or re-index the stored frame, and
    `to_json(orient=\x27split\x27)` round-trips the index).
  * A date string exchanged with the Dash date picker is modelled by
    whether `pd.to_datetime` parses it and, when it does, by the day it
    denotes (`DateValue`).  ISO printing followed by parsing of a
    midnight-aligned timestamp is exact, so a timestamp written into the
    picker by a callback is modelled as `DateValue.valid` of its day.
  * A Dash callback that returns `no_update` (or raises, which Dash
    treats the same way) is modelled as returning `none`; the stores then
    keep their previous contents.
-/

namespace Gantt

/-- Day number of the proleptic-Gregorian date `y-m-d` (days since
1970-01-01, Howard Hinnant's `days_from_civil` algorithm).  Used to write
the concrete dates appearing in the sources (`pd.to_datetime('2025-08-01')`
and friends) as exact integers. -/
def daysFromCivil (y m d : Int) : Int :=
  let y2 : Int := if m ≤ 2 then y - 1 else y
  let era : Int := (if 0 ≤ y2 then y2 else y2 - 399) / 400
  let yoe : Int := y2 - era * 400
  let mp : Int := (m + 9) % 12
  let doy : Int := (153 * mp + 2) / 5 + d - 1
  let doe : Int := yoe * 365 + yoe / 4 - yoe / 100 + doy
  era * 146097 + doe - 719468

/-- `ordem_de_servico = pd.to_datetime('2025-08-01')` (app.py line 17,
main.py line 17), the base date of the schedule. -/
def ordem_de_servico : Int := daysFromCivil 2025 8 1

/-- One row of the raw CSV table after column selection:
columns `Item`, `Nick`, `Projetos`, `Mês Início`, `Mês Fim` with the
dtypes requested in `load_schedule_data`. -/
structure RawTask where
  item : Int
  nick : String
  projetos : String
  mesInicio : Int
  mesFim : Int
deriving DecidableEq, Repr

/-- One row of the schedule DataFrame after `calcular_datas` added the
columns `Data Início`, `Data Término` (day numbers) and `Duracao`
(a whole number of days — every duration the program builds is a whole
number of days). -/
structure Task where
  item : Int
  nick : String
  projetos : String
  mesInicio : Int
  mesFim : Int
  dataInicio : Int
  dataTermino : Int
  duracao : Int
deriving DecidableEq, Repr

/-- `calcular_datas(df_original, data_base)` (main.py lines 27-37; app.py
lines 19-28 is the same computation with `data_base` fixed to
`ordem_de_servico`):
`Data Início  = data_base + (Mês Início - 1) * 30` days,
`Data Término = data_base + ((Mês Fim - 1) * 30 + 29)` days,
`Duracao      = Data Término - Data Início`. -/
def calcular_datas (df_original : List RawTask) (data_base : Int) : List Task :=
  df_original.map (fun r =>
    let inicio : Int := data_base + (r.mesInicio - 1) * 30
    let termino : Int := data_base + ((r.mesFim - 1) * 30 + 29)
    { item := r.item, nick := r.nick, projetos := r.projetos,
      mesInicio := r.mesInicio, mesFim := r.mesFim,
      dataInicio := inicio, dataTermino := termino,
      duracao := termino - inicio })

/-- A date value handed to a callback by the date picker.  `null` is the
Python `None` (falsy, caught by the `if not new_start_date` guard);
`invalid s` is a non-empty string that `pd.to_datetime` rejects;
`valid d` is a parseable date string denoting day `d`. -/
inductive DateValue where
  | null : DateValue
  | invalid (s : String) : DateValue
  | valid (day : Int) : DateValue
deriving DecidableEq, Repr

/-- `pd.to_datetime` on a picker value: fails (raises) on `null` and on
unparseable strings, returns the denoted day otherwise. -/
def pd_to_datetime : DateValue → Option Int
  | DateValue.null => none
  | DateValue.invalid _ => none
  | DateValue.valid d => some d

/-- The callback `update_task_dates(new_start_date, task_index, json_data)`
(app.py lines 257-268, main.py lines 241-250).  Guard: `if not
new_start_date or task_index is None: return no_update`.  Then the stored
JSON is re-read (`read_json(convert_dates=False)` followed by explicit
`pd.to_datetime` on the date columns and `pd.to_timedelta` on `Duracao` —
the value-level identity, see `serialize_task`/`deserialize_task`), the
selected row's `Duracao` is read with `.loc` (a `KeyError` for an absent
label makes the callback raise, which leaves the store unchanged), the new
start is parsed (`pd.to_datetime` raises on an unparseable string), and
only the two date cells of that row are written:
`Data Início := new_start`, `Data Término := new_start + Duracao`.
`none` models `no_update`/an exception: the store keeps its old value. -/
def update_task_dates (new_start_date : DateValue) (task_index : Option Nat)
    (sched : List Task) : Option (List Task) :=
  if new_start_date = DateValue.null ∨ task_index = none then none
  else
    match task_index with
    | none => none
    | some i =>
      if h : i < sched.length then
        match pd_to_datetime new_start_date with
        | none => none
        | some d =>
          let t := sched.get ⟨i, h⟩
          some (sched.set i
            { t with dataInicio := d, dataTermino := d + t.duracao })
      else none

/-- Result of `load_schedule_data` (app.py lines 104-143, main.py lines
113-152) on an already-parsed table.  `emptyError` is the
`ValueError` raised when the frame is empty after column selection,
`invalidRange bad` the `ValueError` whose message lists, for every
offending row, the CSV line number (`DataFrame index + 2`) together with
the row's `Item`, `Mês Início` and `Mês Fim`.  (Reading the file itself —
`read_csv` with `usecols`/`dtype`, `FileNotFoundError`, parse errors — is
I/O glue outside this model; the model starts from the selected, typed
rows.) -/
inductive LoadResult where
  | ok (rows : List RawTask) : LoadResult
  | emptyError : LoadResult
  | invalidRange (bad : List (Nat × Int × Int × Int)) : LoadResult
deriving DecidableEq, Repr

/-- The rows of `df[~(df['Mês Início'] <= df['Mês Fim'])]` displayed with
index shifted by 2 (`invalid_rows_display.index = invalid_rows.index + 2`):
entries `(index + 2, Item, Mês Início, Mês Fim)`, where `i` is the index
of the first listed row. -/
def invalid_rows_from (i : Nat) : List RawTask → List (Nat × Int × Int × Int)
  | [] => []
  | r :: rest =>
    if r.mesFim < r.mesInicio then
      (i + 2, r.item, r.mesInicio, r.mesFim) :: invalid_rows_from (i + 1) rest
    else invalid_rows_from (i + 1) rest

/-- `load_schedule_data` validation logic: raise if the selected table is
empty, raise listing the offending rows if some row has
`Mês Início > Mês Fim`, otherwise return the rows unchanged. -/
def load_schedule_data (rows : List RawTask) : LoadResult :=
  if rows.isEmpty then LoadResult.emptyError
  else if rows.all (fun r => decide (r.mesInicio ≤ r.mesFim)) then LoadResult.ok rows
  else LoadResult.invalidRange (invalid_rows_from 0 rows)

/-- Milliseconds per day: `to_json(date_format='iso')` prints timestamps
with millisecond precision. -/
def msPerDay : Int := 86400000

/-- One row of the `dcc.Store` JSON transport form produced by
`df.to_json(date_format='iso', orient='split')`.  An ISO-8601 timestamp
string is modelled by the instant it denotes, in integer milliseconds
since the epoch (the precision the string carries); the ISO-8601 duration
string written for a `Timedelta` (`P59DT0H0M0S`) is likewise modelled by
the total milliseconds it denotes. -/
structure TransportTask where
  item : Int
  nick : String
  projetos : String
  mesInicio : Int
  mesFim : Int
  dataInicioMs : Int
  dataTerminoMs : Int
  duracaoMs : Int
deriving DecidableEq, Repr

/-- `to_json(date_format='iso', orient='split')` on one row: the date
columns are printed as the ISO timestamps of their midnights, `Duracao`
as an ISO duration. -/
def serialize_task (t : Task) : TransportTask :=
  { item := t.item, nick := t.nick, projetos := t.projetos,
    mesInicio := t.mesInicio, mesFim := t.mesFim,
    dataInicioMs := t.dataInicio * msPerDay,
    dataTerminoMs := t.dataTermino * msPerDay,
    duracaoMs := t.duracao * msPerDay }

/-- Deserialization exactly as the callbacks do it
(app.py lines 261-263, main.py lines 243-245):
`read_json(..., convert_dates=False)` keeps the transport strings, then
`pd.to_datetime` turns the two date columns back into the denoted
timestamps and `pd.to_timedelta` turns the stored `Duracao` field — not a
subtraction of the dates — back into the denoted duration. -/
def deserialize_task (r : TransportTask) : Task :=
  { item := r.item, nick := r.nick, projetos := r.projetos,
    mesInicio := r.mesInicio, mesFim := r.mesFim,
    dataInicio := r.dataInicioMs / msPerDay,
    dataTermino := r.dataTerminoMs / msPerDay,
    duracao := r.duracaoMs / msPerDay }

/-- Whole-schedule serialization (rows of the `orient='split'` payload;
the `RangeIndex` round-trips positionally). -/
def serialize_schedule (sched : List Task) : List TransportTask :=
  sched.map serialize_task

/-- Whole-schedule deserialization as performed by the callbacks. -/
def deserialize_schedule (rows : List TransportTask) : List Task :=
  rows.map deserialize_task

/-- First row satisfying `p` together with its DataFrame index: models
`task_info = df[df['Nick'] == nick]` followed by `task_info.index[0]` and
`task_info.iloc[0]` (`none` when the filtered frame is empty). -/
def findWithIndex (p : Task → Bool) : List Task → Option (Nat × Task)
  | [] => none
  | t :: rest =>
    if p t then some (0, t)
    else (findWithIndex p rest).map (fun q => (q.1 + 1, q.2))

/-- Insert a row into a list sorted by `Item` descending. -/
def insertDesc (a : Task) : List Task → List Task
  | [] => [a]
  | b :: l => if b.item ≤ a.item then a :: b :: l else b :: insertDesc a l

/-- `df_chart.sort_values(by='Item', ascending=False)`: the schedule
sorted by `Item` descending (insertion sort; `Item` values are distinct
in every dataset the program builds, so this matches pandas' sort
exactly). -/
def sortByItemDesc : List Task → List Task
  | [] => []
  | a :: l => insertDesc a (sortByItemDesc l)

/-- One `plotly` bar trace of `px.timeline(..., y='Nick',
color='Projetos')`: one trace per project, `y` the nicks of that
project's rows in frame order, `marker.color` the project's fill color. -/
structure Trace where
  name : String
  y : List String
  markerColor : String
deriving DecidableEq, Repr

/-- The distinct values of a list in order of first appearance (the order
in which `px.timeline` opens one trace per `Projetos` value). -/
def firstOccurrences : List String → List String
  | [] => []
  | p :: rest => p :: (firstOccurrences rest).filter (fun q => decide (q ≠ p))

/-- The project of each row, deduplicated in order of first appearance. -/
def projectsInOrder (rows : List Task) : List String :=
  firstOccurrences (rows.map (fun t => t.projetos))

/-- The traces `px.timeline(df_chart, x_start='Data Início',
x_end='Data Término', y='Nick', color='Projetos')` builds from the sorted
frame; `palette` is the qualitative color sequence keyed by project
(opaque to this model — the highlight logic only copies
`trace.marker.color`). -/
def makeTraces (rows : List Task) (palette : String → String) : List Trace :=
  (projectsInOrder rows).map (fun p =>
    { name := p,
      y := (rows.filter (fun t => decide (t.projetos = p))).map (fun t => t.nick),
      markerColor := palette p })

/-- Python truthiness of an optional string: `None` and `""` are falsy. -/
def truthyStr : Option String → Bool
  | none => false
  | some s => !s.isEmpty

namespace App

/-- The click callback `store_selected_task(clickData, json_data,
current_selected_index)` of app.py (lines 208-230).  Returns the new
values of `(selected-task-store, selected-task-name, picker disabled,
picker date)`, or `none` for `no_update` (nick not found).  A click with
no `clickData`, or on the bar whose resolved index equals the currently
stored selection, clears the selection; otherwise the clicked task is
selected and the picker is loaded with its current `Data Início`. -/
def store_selected_task (clickData : Option String) (sched : List Task)
    (current_selected_index : Option Nat) :
    Option (Option Nat × String × Bool × DateValue) :=
  match clickData with
  | none => some (none, "Nenhuma", true, DateValue.null)
  | some nick =>
    match findWithIndex (fun t => t.nick == nick) sched with
    | none => none
    | some (i, t) =>
      if current_selected_index = some i then
        some (none, "Nenhuma", true, DateValue.null)
      else
        some (some i, "\x27" ++ nick ++ "\x27", false, DateValue.valid t.dataInicio)

/-- The reset callback `reset_to_original_dates(n_clicks,
original_json_data)` of app.py (lines 242-247): `no_update` when the
button was never pressed or the original store is missing, otherwise the
original data is written back to `gantt-data-store` and the selection and
picker are cleared. -/
def reset_to_original_dates (n_clicks : Nat) (original : Option (List Task)) :
    Option (List Task × Option Nat × String × Bool × DateValue) :=
  if n_clicks = 0 then none
  else
    match original with
    | none => none
    | some o => some (o, none, "Nenhuma", true, DateValue.null)

/-- Lines 280-291 of app.py: resolve the stored selection index to the
selected row's `Nick` and `Projetos` via `df.loc`; a stale index
(`KeyError`) leaves both `None`. -/
def selectionDetails (sched : List Task) (sel : Option Nat) :
    Option String × Option String :=
  match sel with
  | none => (none, none)
  | some i =>
    match sched.get? i with
    | none => (none, none)
    | some t => (some t.nick, some t.projetos)

end App

namespace Main

/-- The click callback `store_selected_task(clickData, json_data)` of
main.py (lines 216-232).  Unlike app.py it takes no current-selection
state and has no toggle branch: any click that resolves always selects
the clicked task and additionally stores its project
(`selected-project-store`).  Returns `(selected-task-store,
selected-task-name, picker disabled, picker date, selected-project-store)`
or `none` for `no_update`. -/
def store_selected_task (clickData : Option String) (sched : List Task) :
    Option (Option Nat × String × Bool × DateValue × Option String) :=
  match clickData with
  | none => some (none, "Nenhuma", true, DateValue.null, none)
  | some nick =>
    match findWithIndex (fun t => t.nick == nick) sched with
    | none => none
    | some (i, t) =>
      some (some i, "\x27" ++ nick ++ "\x27", false,
        DateValue.valid t.dataInicio, some t.projetos)

/-- The highlight logic of main.py's `update_gantt_chart` (lines 267-277):
a whole-trace opacity per project — the selected project's trace fully
opaque, every other trace at 0.3, and all traces fully opaque when no
project is selected (`if selected_project:` is Python truthiness). -/
def traceOpacity (selected_project : Option String) (t : Trace) : ℚ :=
  if truthyStr selected_project then
    match selected_project with
    | some p => if t.name = p then 1 else 3 / 10
    | none => 1
  else 1

/-- Per-trace opacities of main.py's chart for the current schedule and
selected project. -/
def update_gantt_chart_opacities (sched : List Task)
    (selected_project : Option String) (palette : String → String) : List ℚ :=
  (makeTraces (sortByItemDesc sched) palette).map (traceOpacity selected_project)

end Main

/-- `default_opacity = 1.0` (app.py line 298). -/
def default_opacity : ℚ := 1

/-- `dimmed_opacity = 0.35` (app.py line 299). -/
def dimmed_opacity : ℚ := 35 / 100

/-- The default thin border: width `0.5`, color `rgba(0,0,0,0.2)`
(app.py lines 310-311). -/
def default_line_width : ℚ := 1 / 2

/-- The neutral border color of an unhighlighted bar (app.py line 311). -/
def neutral_border : String := "rgba(0,0,0,0.2)"

/-- The per-bar style lists app.py writes onto one trace:
`marker.opacity`, `marker.line.width`, `marker.line.color`. -/
structure TraceStyle where
  opacities : List ℚ
  lineWidths : List ℚ
  lineColors : List String
deriving DecidableEq, Repr

namespace App

/-- The body of the `for trace in fig.data` loop of app.py's
`update_gantt_chart` (lines 302-333).  A trace with no bars is skipped
(`none`).  With no active selection (Python truthiness of the resolved
nick and project) every bar keeps full opacity and the thin neutral
border; with an active selection every bar is dimmed and, in the trace
named after the selected project, the first bar carrying the selected
nick gets full opacity, line width 5 and a border in that trace's own
marker color. -/
def styleTrace (selNick selProj : Option String) (t : Trace) :
    Option TraceStyle :=
  if t.y.isEmpty then none
  else
    let n := t.y.length
    if truthyStr selNick && truthyStr selProj then
      match selNick, selProj with
      | some nick, some proj =>
        let dimmed := List.replicate n dimmed_opacity
        let widths := List.replicate n default_line_width
        let colors := List.replicate n neutral_border
        if t.name = proj ∧ nick ∈ t.y then
          let j := t.y.indexOf nick
          some { opacities := dimmed.set j default_opacity,
                 lineWidths := widths.set j 5,
                 lineColors := colors.set j t.markerColor }
        else
          some { opacities := dimmed, lineWidths := widths, lineColors := colors }
      | _, _ =>
        some { opacities := List.replicate n default_opacity,
               lineWidths := List.replicate n default_line_width,
               lineColors := List.replicate n neutral_border }
    else
      some { opacities := List.replicate n default_opacity,
             lineWidths := List.replicate n default_line_width,
             lineColors := List.replicate n neutral_border }

/-- The whole styling pass of app.py's `update_gantt_chart` (lines
275-333): build the traces from the frame sorted by `Item` descending,
resolve the stored selection on the unsorted frame, then style every
trace. -/
def update_gantt_chart_styles (sched : List Task) (sel : Option Nat)
    (palette : String → String) : List (Option TraceStyle) :=
  let traces := makeTraces (sortByItemDesc sched) palette
  let details := selectionDetails sched sel
  traces.map (styleTrace details.1 details.2)

end App

/-- The client-side state of the app.py variant that the callbacks read
and write: the two schedule stores, the selection store, the label, the
picker, and the reset button's click counter. -/
structure AppState where
  ganttData : List Task
  originalData : List Task
  selectedTask : Option Nat
  selectedLabel : String
  pickerDisabled : Bool
  pickerDate : DateValue
  resetClicks : Nat
deriving Repr

/-- A user interaction of the app.py variant. -/
inductive Event where
  | click (clickData : Option String) : Event
  | pickDate (dv : DateValue) : Event
  | resetClick : Event

namespace App

/-- Firing `update_task_dates` with picker value `dv` (its `Input`), the
stored selection and schedule as `State`: `no_update` leaves the store,
a returned frame replaces it. -/
def applyUpdate (st : AppState) (dv : DateValue) : AppState :=
  match update_task_dates dv st.selectedTask st.ganttData with
  | none => st
  | some sched => { st with ganttData := sched }

/-- A click on the chart: `store_selected_task` runs; if it returns
values, its four outputs are written, and writing the picker's `date`
property fires `update_task_dates` with the new picker value (Dash runs
the dependent callback after the outputs, and its `State` arguments read
the already-updated stores). -/
def stepClick (st : AppState) (clickData : Option String) : AppState :=
  match store_selected_task clickData st.ganttData st.selectedTask with
  | none => st
  | some (sel, label, dis, dv) =>
    applyUpdate
      { st with selectedTask := sel, selectedLabel := label,
                pickerDisabled := dis, pickerDate := dv } dv

/-- The user picks a date: the picker's value changes and
`update_task_dates` fires with it. -/
def stepPick (st : AppState) (dv : DateValue) : AppState :=
  applyUpdate { st with pickerDate := dv } dv

/-- A press of the `Datas Originais` button: `n_clicks` increments, so it
is never 0, and the original store is always present; the five outputs
are written and the cleared picker date fires `update_task_dates`, which
is a `no_update` because the selection was just cleared. -/
def stepReset (st : AppState) : AppState :=
  let n := st.resetClicks + 1
  match reset_to_original_dates n (some st.originalData) with
  | none => { st with resetClicks := n }
  | some (sched, sel, label, dis, dv) =>
    applyUpdate
      { st with resetClicks := n, ganttData := sched, selectedTask := sel,
                selectedLabel := label, pickerDisabled := dis,
                pickerDate := dv } dv

/-- One user interaction. -/
def step (st : AppState) : Event → AppState
  | Event.click cd => stepClick st cd
  | Event.pickDate dv => stepPick st dv
  | Event.resetClick => stepReset st

/-- A whole session: the interactions applied in order. -/
def runEvents (st : AppState) (evs : List Event) : AppState :=
  evs.foldl step st

/-- The state right after a successful load (app.py lines 170-196): the
derived schedule is written to both `gantt-data-store` and
`original-gantt-data-store`, nothing is selected, the picker is disabled
and empty, the reset button unclicked. -/
def initialState (raw : List RawTask) (base : Int) : AppState :=
  { ganttData := calcular_datas raw base,
    originalData := calcular_datas raw base,
    selectedTask := none, selectedLabel := "Nenhuma",
    pickerDisabled := true, pickerDate := DateValue.null, resetClicks := 0 }

end App

/-- The client-side state of the main.py variant (no original-data store,
no reset button, an extra selected-project store). -/
structure MainState where
  ganttData : List Task
  selectedTask : Option Nat
  selectedLabel : String
  pickerDisabled : Bool
  pickerDate : DateValue
  selectedProject : Option String
deriving Repr

namespace Main

/-- `update_task_dates` of main.py fired with picker value `dv` (same
code as app.py's, acting on `MainState`). -/
def applyUpdate (st : MainState) (dv : DateValue) : MainState :=
  match update_task_dates dv st.selectedTask st.ganttData with
  | none => st
  | some sched => { st with ganttData := sched }

/-- A click on the chart in the main.py variant: `store_selected_task`
runs (no toggle), its five outputs are written, and the picker-date write
fires `update_task_dates`. -/
def stepClick (st : MainState) (clickData : Option String) : MainState :=
  match store_selected_task clickData st.ganttData with
  | none => st
  | some (sel, label, dis, dv, proj) =>
    applyUpdate
      { st with selectedTask := sel, selectedLabel := label,
                pickerDisabled := dis, pickerDate := dv,
                selectedProject := proj } dv

end Main

/-- The built-in fallback dataset (app.py lines 160-164, main.py lines
169-173), used when the CSV cannot be loaded. -/
def fallback_raw : List RawTask :=
  [{ item := 1, nick := "Tarefa A", projetos := "Projeto 1", mesInicio := 1, mesFim := 3 },
   { item := 2, nick := "Tarefa B", projetos := "Projeto 1", mesInicio := 4, mesFim := 6 },
   { item := 3, nick := "Tarefa C", projetos := "Projeto 2", mesInicio := 2, mesFim := 5 }]

/-- The fallback dataset with dates derived from the order-of-service
base date, as both variants do right after loading. -/
def fallback_sched : List Task :=
  calcular_datas fallback_raw ordem_de_servico

/-- The fallback schedule after `Tarefa B` (row 1) is moved to day 20345
(2025-09-15, the date used by the repository's own test 3). -/
def moved_example : List Task :=
  [{ item := 1, nick := "Tarefa A", projetos := "Projeto 1", mesInicio := 1,
     mesFim := 3, dataInicio := 20301, dataTermino := 20390, duracao := 89 },
   { item := 2, nick := "Tarefa B", projetos := "Projeto 1", mesInicio := 4,
     mesFim := 6, dataInicio := 20345, dataTermino := 20434, duracao := 89 },
   { item := 3, nick := "Tarefa C", projetos := "Projeto 2", mesInicio := 2,
     mesFim := 5, dataInicio := 20331, dataTermino := 20450, duracao := 119 }]

/-- A raw table whose rows 0 and 2 violate `Mês Início ≤ Mês Fim`. -/
def bad_raw : List RawTask :=
  [{ item := 5, nick := "X", projetos := "P", mesInicio := 4, mesFim := 2 },
   { item := 6, nick := "Y", projetos := "P", mesInicio := 1, mesFim := 2 },
   { item := 7, nick := "Z", projetos := "P", mesInicio := 9, mesFim := 3 }]

/-- Row 0 of the fallback schedule (`Tarefa A`) with its derived dates. -/
def taskA_example : Task :=
  { item := 1, nick := "Tarefa A", projetos := "Projeto 1", mesInicio := 1,
    mesFim := 3, dataInicio := 20301, dataTermino := 20390, duracao := 89 }

/-- An app.py client state in which `Tarefa A` (row 0) is selected. -/
def toggle_state : AppState :=
  { ganttData := fallback_sched, originalData := fallback_sched,
    selectedTask := some 0, selectedLabel := "\x27Tarefa A\x27",
    pickerDisabled := false, pickerDate := DateValue.valid 20301,
    resetClicks := 0 }

/-- A main.py client state in which `Tarefa A` (row 0) is selected. -/
def main_toggle_state : MainState :=
  { ganttData := fallback_sched, selectedTask := some 0,
    selectedLabel := "\x27Tarefa A\x27", pickerDisabled := false,
    pickerDate := DateValue.valid 20301, selectedProject := some "Projeto 1" }

/-! ## Helper lemmas -/

theorem list_set_self {α : Type _} (l : List α) (i : Nat) (h : i < l.length) :
    l.set i (l.get ⟨i, h⟩) = l := by
  apply List.ext_getElem?
  intro j
  rcases eq_or_ne i j with rfl | hne
  · rw [List.getElem?_set_self (by simpa using h), List.get_eq_getElem,
      List.getElem?_eq_getElem h]
  · exact List.getElem?_set_ne hne

/-- Inversion of a successful `update_task_dates`: the guard passed, the
label was present, the date parsed, and the result is a single-row
rewrite of the two date cells. -/
theorem update_task_dates_some_inv (dv : DateValue) (i : Nat)
    (sched sched' : List Task)
    (h : update_task_dates dv (some i) sched = some sched') :
    ∃ hi : i < sched.length, ∃ d, pd_to_datetime dv = some d ∧
      sched' = sched.set i
        { sched.get ⟨i, hi⟩ with
          dataInicio := d
          dataTermino := d + (sched.get ⟨i, hi⟩).duracao } := by
  by_cases hnull : dv = DateValue.null
  · subst hnull; simp [update_task_dates] at h
  · by_cases hi : i < sched.length
    · cases hd : pd_to_datetime dv with
      | none => simp [update_task_dates, hnull, hi, hd] at h
      | some d =>
        refine ⟨hi, d, rfl, ?_⟩
        simp [update_task_dates, hnull, hi, hd] at h
        exact h.symm
    · simp [update_task_dates, hnull, hi] at h

/-- No app.py callback ever writes `original-gantt-data-store`: a single
interaction leaves it untouched. -/
theorem step_originalData (st : AppState) (e : Event) :
    (App.step st e).originalData = st.originalData := by
  cases e with
  | click cd =>
    simp only [App.step, App.stepClick]
    cases App.store_selected_task cd st.ganttData st.selectedTask with
    | none => rfl
    | some out =>
      obtain ⟨sel, label, dis, dv⟩ := out
      simp only [App.applyUpdate]
      cases update_task_dates dv sel st.ganttData with
      | none => rfl
      | some s => rfl
  | pickDate dv =>
    simp only [App.step, App.stepPick, App.applyUpdate]
    cases update_task_dates dv st.selectedTask st.ganttData with
    | none => rfl
    | some s => rfl
  | resetClick =>
    simp only [App.step, App.stepReset, App.reset_to_original_dates]
    simp only [Nat.succ_ne_zero, if_neg, App.applyUpdate, update_task_dates]
    rfl

/-- `original-gantt-data-store` is untouched by any interaction
sequence. -/
theorem runEvents_originalData (st : AppState) (evs : List Event) :
    (App.runEvents st evs).originalData = st.originalData := by
  induction evs generalizing st with
  | nil => rfl
  | cons e evs ih =>
    show (App.runEvents (App.step st e) evs).originalData = _
    rw [ih, step_originalData]

/-- A successful `findWithIndex` returns the row stored at the returned
index, and that row satisfies the predicate. -/
theorem findWithIndex_spec {p : Task → Bool} {l : List Task} {i : Nat}
    {t : Task} (h : findWithIndex p l = some (i, t)) :
    l.get? i = some t ∧ p t = true := by
  induction l generalizing i with
  | nil => simp [findWithIndex] at h
  | cons a l ih =>
    by_cases ha : p a
    · simp [findWithIndex, ha] at h
      obtain ⟨rfl, rfl⟩ := h
      exact ⟨rfl, ha⟩
    · simp only [findWithIndex, if_neg ha, Option.map_eq_some'] at h
      obtain ⟨⟨j, u⟩, hj, huv⟩ := h
      obtain ⟨rfl, rfl⟩ : j + 1 = i ∧ u = t := by
        simpa [Prod.ext_iff] using huv
      simpa [List.get?_cons_succ] using ih hj

/-- A successful `update_task_dates` preserves the row invariant
`Data Término = Data Início + Duracao`. -/
theorem update_task_dates_consistent {dv : DateValue} {idx : Option Nat}
    {sched sched' : List Task}
    (h : update_task_dates dv idx sched = some sched')
    (hc : ∀ t ∈ sched, t.dataTermino = t.dataInicio + t.duracao) :
    ∀ t ∈ sched', t.dataTermino = t.dataInicio + t.duracao := by
  cases idx with
  | none => simp [update_task_dates] at h
  | some i =>
    obtain ⟨hi, d, hd, rfl⟩ := update_task_dates_some_inv dv i sched sched' h
    intro t ht
    rcases List.mem_or_eq_of_mem_set ht with h' | rfl
    · exact hc t h'
    · simp

/-- Firing the update callback preserves the row invariant of the stored
schedule. -/
theorem applyUpdate_consistent (st : AppState) (dv : DateValue)
    (hc : ∀ t ∈ st.ganttData, t.dataTermino = t.dataInicio + t.duracao) :
    ∀ t ∈ (App.applyUpdate st dv).ganttData,
      t.dataTermino = t.dataInicio + t.duracao := by
  simp only [App.applyUpdate]
  cases h : update_task_dates dv st.selectedTask st.ganttData with
  | none => exact hc
  | some s => exact update_task_dates_consistent h hc

/-- A reset press restores the original store, clears the selection and
the picker, and bumps the click counter; the cascaded update fires with a
null date and is a `no_update`. -/
theorem stepReset_eq (st : AppState) :
    App.stepReset st =
      { st with
        resetClicks := st.resetClicks + 1
        ganttData := st.originalData
        selectedTask := none
        selectedLabel := "Nenhuma"
        pickerDisabled := true
        pickerDate := DateValue.null } := by
  simp [App.stepReset, App.reset_to_original_dates, App.applyUpdate,
    update_task_dates]

/-- Every schedule `calcular_datas` produces satisfies
`Data Término = Data Início + Duracao` in every row. -/
theorem calcular_datas_consistent (raw : List RawTask) (base : Int) :
    ∀ t ∈ calcular_datas raw base,
      t.dataTermino = t.dataInicio + t.duracao := by
  intro t ht
  simp only [calcular_datas, List.mem_map] at ht
  obtain ⟨r, _, rfl⟩ := ht
  simp

/-- One interaction preserves the row invariant of both stores. -/
theorem step_consistent (st : AppState) (e : Event)
    (h1 : ∀ t ∈ st.ganttData, t.dataTermino = t.dataInicio + t.duracao)
    (h2 : ∀ t ∈ st.originalData, t.dataTermino = t.dataInicio + t.duracao) :
    (∀ t ∈ (App.step st e).ganttData,
      t.dataTermino = t.dataInicio + t.duracao) ∧
    (∀ t ∈ (App.step st e).originalData,
      t.dataTermino = t.dataInicio + t.duracao) := by
  refine ⟨?_, by rw [step_originalData]; exact h2⟩
  cases e with
  | click cd =>
    simp only [App.step, App.stepClick]
    cases App.store_selected_task cd st.ganttData st.selectedTask with
    | none => exact h1
    | some out =>
      obtain ⟨sel, label, dis, dv⟩ := out
      exact applyUpdate_consistent _ dv h1
  | pickDate dv =>
    exact applyUpdate_consistent _ dv h1
  | resetClick =>
    rw [App.step, stepReset_eq]
    exact h2

/-- Every reachable state of the app.py session satisfies the row
invariant in both stores. -/
theorem runEvents_consistent (st : AppState) (evs : List Event)
    (h1 : ∀ t ∈ st.ganttData, t.dataTermino = t.dataInicio + t.duracao)
    (h2 : ∀ t ∈ st.originalData, t.dataTermino = t.dataInicio + t.duracao) :
    (∀ t ∈ (App.runEvents st evs).ganttData,
      t.dataTermino = t.dataInicio + t.duracao) ∧
    (∀ t ∈ (App.runEvents st evs).originalData,
      t.dataTermino = t.dataInicio + t.duracao) := by
  induction evs generalizing st with
  | nil => exact ⟨h1, h2⟩
  | cons e evs ih =>
    obtain ⟨g1, g2⟩ := step_consistent st e h1 h2
    exact ih (App.step st e) g1 g2

/-- Moving a task to its own current start date rewrites both date cells
with the values they already hold, so the updated frame is the very same
frame. -/
theorem move_to_current_start_identity (sched : List Task) (i : Nat)
    (hi : i < sched.length) (dv : DateValue)
    (hc : ∀ t ∈ sched, t.dataTermino = t.dataInicio + t.duracao)
    (hp : pd_to_datetime dv = some ((sched.get ⟨i, hi⟩).dataInicio)) :
    update_task_dates dv (some i) sched = some sched := by
  cases dv with
  | null => simp [pd_to_datetime] at hp
  | invalid s => simp [pd_to_datetime] at hp
  | valid d0 =>
    have hd : d0 = (sched.get ⟨i, hi⟩).dataInicio := by
      simpa [pd_to_datetime] using hp
    subst hd
    have key : ({ sched.get ⟨i, hi⟩ with
        dataInicio := (sched.get ⟨i, hi⟩).dataInicio
        dataTermino := (sched.get ⟨i, hi⟩).dataInicio
          + (sched.get ⟨i, hi⟩).duracao } : Task) = sched.get ⟨i, hi⟩ := by
      have ht := hc _ (List.get_mem sched i hi)
      cases hts : sched.get ⟨i, hi⟩
      rw [hts] at ht
      simp_all
    have hupd : update_task_dates
        (DateValue.valid (sched.get ⟨i, hi⟩).dataInicio) (some i) sched
        = some (sched.set i { sched.get ⟨i, hi⟩ with
            dataInicio := (sched.get ⟨i, hi⟩).dataInicio
            dataTermino := (sched.get ⟨i, hi⟩).dataInicio
              + (sched.get ⟨i, hi⟩).duracao }) := by
      simp [update_task_dates, hi, pd_to_datetime]
    rw [hupd, key, list_set_self sched i hi]

/-- Membership in the reported invalid-row list: exactly the rows with
`Mês Fim < Mês Início`, tagged with `k + index + 2`. -/
theorem invalid_rows_from_mem (k : Nat) (rows : List RawTask)
    (x : Nat × Int × Int × Int) :
    x ∈ invalid_rows_from k rows ↔
      ∃ j r, rows.get? j = some r ∧ r.mesFim < r.mesInicio ∧
        x = (k + j + 2, r.item, r.mesInicio, r.mesFim) := by
  induction rows generalizing k with
  | nil => simp [invalid_rows_from]
  | cons a l ih =>
    constructor
    · intro hx
      by_cases ha : a.mesFim < a.mesInicio
      · simp only [invalid_rows_from, if_pos ha] at hx
        rcases List.mem_cons.mp hx with rfl | hx'
        · exact ⟨0, a, rfl, ha, by simp⟩
        · obtain ⟨j, r, hj, hbad, rfl⟩ := (ih (k + 1)).mp hx'
          refine ⟨j + 1, r, by simpa using hj, hbad, ?_⟩
          have harith : k + 1 + j + 2 = k + (j + 1) + 2 := by omega
          rw [harith]
      · simp only [invalid_rows_from, if_neg ha] at hx
        obtain ⟨j, r, hj, hbad, rfl⟩ := (ih (k + 1)).mp hx
        refine ⟨j + 1, r, by simpa using hj, hbad, ?_⟩
        have harith : k + 1 + j + 2 = k + (j + 1) + 2 := by omega
        rw [harith]
    · rintro ⟨j, r, hj, hbad, rfl⟩
      cases j with
      | zero =>
        obtain rfl : a = r := by simpa using hj
        simp [invalid_rows_from, hbad]
      | succ j =>
        have hj' : l.get? j = some r := by simpa using hj
        have heq : (k + (j + 1) + 2, r.item, r.mesInicio, r.mesFim)
            = (k + 1 + j + 2, r.item, r.mesInicio, r.mesFim) := by
          have harith : k + (j + 1) + 2 = k + 1 + j + 2 := by omega
          rw [harith]
        have hmem : (k + (j + 1) + 2, r.item, r.mesInicio, r.mesFim)
            ∈ invalid_rows_from (k + 1) l :=
          (ih (k + 1)).mpr ⟨j, r, hj', hbad, heq⟩
        by_cases ha : a.mesFim < a.mesInicio
        · simp only [invalid_rows_from, if_pos ha]
          exact List.mem_cons_of_mem _ hmem
        · simp only [invalid_rows_from, if_neg ha]
          exact hmem

/-- Inserting into the sorted list is a permutation of consing. -/
theorem insertDesc_perm (a : Task) (l : List Task) :
    (insertDesc a l).Perm (a :: l) := by
  induction l with
  | nil => exact List.Perm.refl _
  | cons b l ih =>
    by_cases h : b.item ≤ a.item
    · simp only [insertDesc, if_pos h]
      exact List.Perm.refl _
    · simp only [insertDesc, if_neg h]
      exact (ih.cons b).trans (List.Perm.swap a b l)

/-- The chart's sort is a permutation of the stored schedule. -/
theorem sortByItemDesc_perm (l : List Task) :
    (sortByItemDesc l).Perm l := by
  induction l with
  | nil => exact List.Perm.refl _
  | cons a l ih =>
    exact (insertDesc_perm a (sortByItemDesc l)).trans (ih.cons a)

/-- `firstOccurrences` keeps exactly the members of the list. -/
theorem mem_firstOccurrences {p : String} {l : List String} :
    p ∈ firstOccurrences l ↔ p ∈ l := by
  induction l with
  | nil => simp [firstOccurrences]
  | cons a l ih =>
    simp only [firstOccurrences, List.mem_cons, List.mem_filter]
    constructor
    · rintro (rfl | ⟨hp, -⟩)
      · exact Or.inl rfl
      · exact Or.inr (ih.mp hp)
    · rintro (rfl | hp)
      · exact Or.inl rfl
      · by_cases hpa : p = a
        · exact Or.inl hpa
        · exact Or.inr ⟨ih.mpr hp, by simpa using hpa⟩

/-- `firstOccurrences` produces no duplicates. -/
theorem nodup_firstOccurrences (l : List String) :
    (firstOccurrences l).Nodup := by
  induction l with
  | nil => simp [firstOccurrences]
  | cons a l ih =>
    refine List.nodup_cons.mpr ⟨?_, List.Nodup.filter _ ih⟩
    intro hmem
    exact absurd (List.mem_filter.mp hmem).2 (by simp)

/-- A project appears among the chart's trace keys iff some row carries
it. -/
theorem mem_projectsInOrder {p : String} {rows : List Task} :
    p ∈ projectsInOrder rows ↔ ∃ u ∈ rows, u.projetos = p := by
  rw [projectsInOrder, mem_firstOccurrences, List.mem_map]

/-- The trace at position `ti` is the trace of the `ti`-th first-seen
project. -/
theorem makeTraces_get? (rows : List Task) (palette : String → String)
    (ti : Nat) (tr : Trace) :
    (makeTraces rows palette).get? ti = some tr ↔
      ∃ p, (projectsInOrder rows).get? ti = some p ∧
        tr = { name := p,
               y := (rows.filter (fun u => decide (u.projetos = p))).map
                 (fun u => u.nick),
               markerColor := palette p } := by
  simp only [makeTraces, List.get?_map, Option.map_eq_some']
  constructor
  · rintro ⟨p, hp, rfl⟩; exact ⟨p, hp, rfl⟩
  · rintro ⟨p, hp, rfl⟩; exact ⟨p, hp, rfl⟩

/-- Every trace `px.timeline` builds has at least one bar. -/
theorem makeTraces_y_ne_nil {rows : List Task} {palette : String → String}
    {ti : Nat} {tr : Trace}
    (h : (makeTraces rows palette).get? ti = some tr) : tr.y ≠ [] := by
  obtain ⟨p, hp, rfl⟩ := (makeTraces_get? rows palette ti tr).mp h
  have hpm : p ∈ projectsInOrder rows := List.get?_mem hp
  obtain ⟨u, hu, hup⟩ := mem_projectsInOrder.mp hpm
  have hy : u.nick ∈ (rows.filter (fun v => decide (v.projetos = p))).map
      (fun v => v.nick) :=
    List.mem_map_of_mem _ (List.mem_filter.mpr ⟨hu, by simp [hup]⟩)
  exact List.ne_nil_of_mem hy

/-- With no (truthy) selection resolved, app.py styles a non-empty trace
with full opacity and the thin neutral border on every bar. -/
theorem styleTrace_inactive (selNick selProj : Option String)
    (h : truthyStr selNick = false ∨ truthyStr selProj = false)
    (tr : Trace) (hy : tr.y ≠ []) :
    App.styleTrace selNick selProj tr =
      some { opacities := List.replicate tr.y.length default_opacity,
             lineWidths := List.replicate tr.y.length default_line_width,
             lineColors := List.replicate tr.y.length neutral_border } := by
  have h1 : tr.y.isEmpty = false := by
    simpa [List.isEmpty_iff] using hy
  have h2 : (truthyStr selNick && truthyStr selProj) = false := by
    rcases h with h | h <;> simp [h]
  simp [App.styleTrace, h1, h2]

/-- With an active selection (non-empty nick and project), app.py styles
a non-empty trace with all bars dimmed and, when this trace is the
selected project's and carries the nick, the first bar with that nick
highlighted. -/
theorem styleTrace_active (nick proj : String) (hn : nick ≠ "")
    (hp : proj ≠ "") (tr : Trace) (hy : tr.y ≠ []) :
    App.styleTrace (some nick) (some proj) tr =
      if tr.name = proj ∧ nick ∈ tr.y then
        some { opacities := (List.replicate tr.y.length dimmed_opacity).set
                 (tr.y.indexOf nick) default_opacity,
               lineWidths := (List.replicate tr.y.length
                 default_line_width).set (tr.y.indexOf nick) 5,
               lineColors := (List.replicate tr.y.length neutral_border).set
                 (tr.y.indexOf nick) tr.markerColor }
      else
        some { opacities := List.replicate tr.y.length dimmed_opacity,
               lineWidths := List.replicate tr.y.length default_line_width,
               lineColors := List.replicate tr.y.length neutral_border } := by
  have h1 : tr.y.isEmpty = false := by
    simpa [List.isEmpty_iff] using hy
  have hn' : nick.isEmpty = false := by
    cases hni : nick.isEmpty
    · rfl
    · exact absurd ((String.isEmpty_iff nick).mp hni) hn
  have hp' : proj.isEmpty = false := by
    cases hpi : proj.isEmpty
    · rfl
    · exact absurd ((String.isEmpty_iff proj).mp hpi) hp
  have h2 : truthyStr (some nick) = true := by simp [truthyStr, hn']
  have h3 : truthyStr (some proj) = true := by simp [truthyStr, hp']
  simp only [App.styleTrace, h1, Bool.false_eq_true, if_false, h2, h3,
    Bool.and_self, if_true]

theorem replicate_set_get?_self {α : Type _} (n : Nat) (a b : α) (jidx : Nat)
    (h : jidx < n) :
    ((List.replicate n a).set jidx b).get? jidx = some b := by
  rw [List.get?_eq_getElem?, List.getElem?_set_self (by simpa using h)]

theorem replicate_set_get?_ne {α : Type _} (n : Nat) (a b : α)
    (jidx j : Nat) (h : j < n) (hne : jidx ≠ j) :
    ((List.replicate n a).set jidx b).get? j = some a := by
  rw [List.get?_eq_getElem?, List.getElem?_set_ne hne,
    List.getElem?_replicate, if_pos h]

theorem replicate_get?_lt {α : Type _} (n : Nat) (a : α) (j : Nat)
    (h : j < n) : (List.replicate n a).get? j = some a := by
  rw [List.get?_eq_getElem?, List.getElem?_replicate, if_pos h]

/-! ## Claims -/

/-- C1: for every schedule and every task key present in it, the
move-task callback `update_task_dates` with a parseable `newStartDate`
sets that task's `Data Início` to the new date and its `Data Término` to
the new date plus the task's prior duration, so end − start after the
move equals the prior duration and the stored `Duracao` field is
unchanged. -/
theorem update_task_dates_preserves_duration
    (sched : List Task) (i : Nat) (hi : i < sched.length)
    (dv : DateValue) (d : Int) (hp : pd_to_datetime dv = some d) :
    ∃ sched', update_task_dates dv (some i) sched = some sched' ∧
      sched'.length = sched.length ∧
      ∃ hi' : i < sched'.length,
        (sched'.get ⟨i, hi'⟩).dataInicio = d ∧
        (sched'.get ⟨i, hi'⟩).dataTermino = d + (sched.get ⟨i, hi⟩).duracao ∧
        (sched'.get ⟨i, hi'⟩).duracao = (sched.get ⟨i, hi⟩).duracao ∧
        (sched'.get ⟨i, hi'⟩).dataTermino - (sched'.get ⟨i, hi'⟩).dataInicio
          = (sched.get ⟨i, hi⟩).duracao := by
  cases dv with
  | null => simp [pd_to_datetime] at hp
  | invalid s => simp [pd_to_datetime] at hp
  | valid d0 =>
    have hd : d0 = d := by simpa [pd_to_datetime] using hp
    subst hd
    refine ⟨sched.set i { sched.get ⟨i, hi⟩ with
        dataInicio := d0
        dataTermino := d0 + (sched.get ⟨i, hi⟩).duracao },
      by simp [update_task_dates, hi, pd_to_datetime], by simp, ?_⟩
    have hi' : i < (sched.set i
        { sched.get ⟨i, hi⟩ with
          dataInicio := d0
          dataTermino := d0 + (sched.get ⟨i, hi⟩).duracao }).length := by
      simpa using hi
    refine ⟨hi', ?_, ?_, ?_, ?_⟩ <;>
      simp [List.get_eq_getElem, List.getElem_set_self]

/-- Witness for C1: moving `Tarefa B` of the fallback schedule to
2025-09-15 (day 20345). -/
theorem update_task_dates_preserves_duration_witness :
    ∃ sched',
      update_task_dates (DateValue.valid 20345) (some 1) fallback_sched
        = some sched' ∧
      sched'.length = fallback_sched.length ∧
      ∃ hi' : 1 < sched'.length,
        (sched'.get ⟨1, hi'⟩).dataInicio = 20345 ∧
        (sched'.get ⟨1, hi'⟩).dataTermino
          = 20345 + (fallback_sched.get ⟨1, by decide⟩).duracao ∧
        (sched'.get ⟨1, hi'⟩).duracao
          = (fallback_sched.get ⟨1, by decide⟩).duracao ∧
        (sched'.get ⟨1, hi'⟩).dataTermino - (sched'.get ⟨1, hi'⟩).dataInicio
          = (fallback_sched.get ⟨1, by decide⟩).duracao :=
  update_task_dates_preserves_duration fallback_sched 1 (by decide)
    (DateValue.valid 20345) 20345 (by decide)

/-- C2: `calcular_datas` computes, for every raw row and base date,
`Data Início = base + (Mês Início − 1) × 30` days,
`Data Término = base + ((Mês Fim − 1) × 30 + 29)` days and
`Duracao = Data Término − Data Início`; in particular the repository's
own test vector (`Mês Início = 1`, `Mês Fim = 2`, base 2025-08-01) yields
start 2025-08-01, end 2025-09-29 and a 59-day duration. -/
theorem calcular_datas_spec :
    (∀ (raw : List RawTask) (base : Int) (i : Nat) (h : i < raw.length),
      ∃ h' : i < (calcular_datas raw base).length,
        ((calcular_datas raw base).get ⟨i, h'⟩).dataInicio
          = base + ((raw.get ⟨i, h⟩).mesInicio - 1) * 30 ∧
        ((calcular_datas raw base).get ⟨i, h'⟩).dataTermino
          = base + (((raw.get ⟨i, h⟩).mesFim - 1) * 30 + 29) ∧
        ((calcular_datas raw base).get ⟨i, h'⟩).duracao
          = ((calcular_datas raw base).get ⟨i, h'⟩).dataTermino
            - ((calcular_datas raw base).get ⟨i, h'⟩).dataInicio) ∧
    calcular_datas
        [{ item := 99, nick := "Teste", projetos := "TestProj",
           mesInicio := 1, mesFim := 2 }] (daysFromCivil 2025 8 1)
      = [{ item := 99, nick := "Teste", projetos := "TestProj",
           mesInicio := 1, mesFim := 2,
           dataInicio := daysFromCivil 2025 8 1,
           dataTermino := daysFromCivil 2025 9 29, duracao := 59 }] := by
  constructor
  · intro raw base i h
    have h' : i < (calcular_datas raw base).length := by
      simpa [calcular_datas] using h
    refine ⟨h', ?_, ?_, ?_⟩ <;>
      simp [calcular_datas, List.get_eq_getElem, List.getElem_map]
  · decide

/-- Witness for C2's universally quantified part, at row 0 of the
fallback dataset. -/
theorem calcular_datas_spec_witness :
    ∃ h' : 0 < (calcular_datas fallback_raw ordem_de_servico).length,
      ((calcular_datas fallback_raw ordem_de_servico).get ⟨0, h'⟩).dataInicio
        = ordem_de_servico
          + ((fallback_raw.get ⟨0, by decide⟩).mesInicio - 1) * 30 ∧
      ((calcular_datas fallback_raw ordem_de_servico).get ⟨0, h'⟩).dataTermino
        = ordem_de_servico
          + (((fallback_raw.get ⟨0, by decide⟩).mesFim - 1) * 30 + 29) ∧
      ((calcular_datas fallback_raw ordem_de_servico).get ⟨0, h'⟩).duracao
        = ((calcular_datas fallback_raw ordem_de_servico).get ⟨0, h'⟩).dataTermino
          - ((calcular_datas fallback_raw ordem_de_servico).get ⟨0, h'⟩).dataInicio :=
  calcular_datas_spec.1 fallback_raw ordem_de_servico 0 (by decide)

/-- C5: serializing a schedule to the store's transport form
(`to_json(date_format='iso', orient='split')`) and deserializing it as
the callbacks do (`read_json(convert_dates=False)`, then `pd.to_datetime`
on the date columns and `pd.to_timedelta` on `Duracao`) reproduces
`Data Início`, `Data Término` and `Duracao` exactly for every task, with
the duration recovered from the stored field rather than re-derived. -/
theorem serialize_roundtrip :
    (∀ sched : List Task,
      deserialize_schedule (serialize_schedule sched) = sched) ∧
    (∀ t : Task, deserialize_task (serialize_task t) = t) := by
  have hdiv : ∀ a : Int, a * 86400000 / 86400000 = a := fun a =>
    Int.mul_ediv_cancel a (by norm_num)
  have ht : ∀ t : Task, deserialize_task (serialize_task t) = t := by
    intro t
    cases t
    simp [deserialize_task, serialize_task, msPerDay, hdiv]
  exact ⟨fun sched => by
    simp [serialize_schedule, deserialize_schedule, List.map_map,
      Function.comp_def, ht], ht⟩

/-- C7: every failing move — `newStartDate` null, no selected task, key
absent from the schedule, or an unparseable date string — produces
`no_update`, leaving the stored schedule exactly as it was (no partial
write). -/
theorem failed_update_leaves_schedule :
    (∀ (dv : DateValue) (idx : Option Nat) (sched : List Task),
      dv = DateValue.null ∨ idx = none ∨ (∃ s, dv = DateValue.invalid s) ∨
        (∃ i, idx = some i ∧ sched.length ≤ i) →
      update_task_dates dv idx sched = none) ∧
    (∀ (st : AppState) (dv : DateValue),
      update_task_dates dv st.selectedTask st.ganttData = none →
      App.applyUpdate st dv = st) := by
  constructor
  · rintro dv idx sched (rfl | rfl | ⟨s, rfl⟩ | ⟨i, rfl, hlen⟩)
    · simp [update_task_dates]
    · simp [update_task_dates]
    · cases idx with
      | none => simp [update_task_dates]
      | some i =>
        by_cases h : i < sched.length
        · simp [update_task_dates, h, pd_to_datetime]
        · simp [update_task_dates, h]
    · simp [update_task_dates, Nat.not_lt.mpr hlen]
  · intro st dv h
    simp [App.applyUpdate, h]

/-- Witness for C7: an unparseable date string and a null picker value on
the freshly loaded fallback state. -/
theorem failed_update_leaves_schedule_witness :
    update_task_dates (DateValue.invalid "not-a-date") (some 0) fallback_sched
      = none ∧
    App.applyUpdate (App.initialState fallback_raw ordem_de_servico)
        DateValue.null
      = App.initialState fallback_raw ordem_de_servico :=
  ⟨failed_update_leaves_schedule.1 _ _ _ (Or.inr (Or.inr (Or.inl ⟨_, rfl⟩))),
   failed_update_leaves_schedule.2 _ _ (by decide)⟩

/-- C8: a successful move of row `k` changes only the two date cells of
row `k`: every other row is unchanged, the `Item`, `Nick`, `Projetos`,
`Mês Início`, `Mês Fim` and `Duracao` fields of row `k` are unchanged,
and no interaction ever mutates the original snapshot store. -/
theorem update_frame_effect :
    (∀ (sched : List Task) (i : Nat) (dv : DateValue) (sched' : List Task),
      update_task_dates dv (some i) sched = some sched' →
      sched'.length = sched.length ∧
      (∀ j, j ≠ i → sched'.get? j = sched.get? j) ∧
      (∀ t t', sched.get? i = some t → sched'.get? i = some t' →
        t'.item = t.item ∧ t'.nick = t.nick ∧ t'.projetos = t.projetos ∧
        t'.mesInicio = t.mesInicio ∧ t'.mesFim = t.mesFim ∧
        t'.duracao = t.duracao)) ∧
    (∀ (raw : List RawTask) (base : Int) (evs : List Event),
      (App.runEvents (App.initialState raw base) evs).originalData
        = calcular_datas raw base) := by
  constructor
  · intro sched i dv sched' h
    obtain ⟨hi, d, hd, rfl⟩ := update_task_dates_some_inv dv i sched sched' h
    refine ⟨by simp, ?_, ?_⟩
    · intro j hj
      simp [List.get?_eq_getElem?, List.getElem?_set_ne (Ne.symm hj)]
    · intro t t' ht ht'
      have ht0 : t = sched.get ⟨i, hi⟩ := by
        rw [List.get?_eq_getElem?, List.getElem?_eq_getElem hi] at ht
        simpa [List.get_eq_getElem] using ht.symm
      have ht1 : t' = { sched.get ⟨i, hi⟩ with
          dataInicio := d
          dataTermino := d + (sched.get ⟨i, hi⟩).duracao } := by
        rw [List.get?_eq_getElem?, List.getElem?_set_self hi] at ht'
        exact (Option.some_injective _ ht').symm
      subst ht0; subst ht1
      simp
  · intro raw base evs
    exact runEvents_originalData _ evs

/-- Witness for C8: the concrete move of `Tarefa B` to day 20345 and an
interaction sequence containing a reset. -/
theorem update_frame_effect_witness :
    moved_example.length = fallback_sched.length ∧
    (App.runEvents (App.initialState fallback_raw ordem_de_servico)
        [Event.resetClick]).originalData
      = calcular_datas fallback_raw ordem_de_servico :=
  ⟨(update_frame_effect.1 fallback_sched 1 (DateValue.valid 20345)
      moved_example (by decide)).1,
   update_frame_effect.2 fallback_raw ordem_de_servico [Event.resetClick]⟩

/-- C3: after any interaction sequence, pressing the reset button
replaces the current schedule with a copy of the original post-load
snapshot — equal dates and durations in every row — and clears the
selection (`None`, label `Nenhuma`, picker disabled and emptied); the
reset always succeeds. -/
theorem reset_restores_original (raw : List RawTask) (base : Int)
    (evs : List Event) :
    (App.stepReset (App.runEvents (App.initialState raw base) evs)).ganttData
      = calcular_datas raw base ∧
    (App.stepReset (App.runEvents (App.initialState raw base) evs)).selectedTask
      = none ∧
    (App.stepReset (App.runEvents (App.initialState raw base) evs)).selectedLabel
      = "Nenhuma" ∧
    (App.stepReset (App.runEvents (App.initialState raw base) evs)).pickerDisabled
      = true ∧
    (App.stepReset (App.runEvents (App.initialState raw base) evs)).pickerDate
      = DateValue.null := by
  have horig : (App.runEvents (App.initialState raw base) evs).originalData
      = calcular_datas raw base := by
    rw [runEvents_originalData]
    rfl
  refine ⟨?_, ?_, ?_, ?_, ?_⟩ <;> simp [stepReset_eq, horig]

/-- C4 (amended, app.py side): in app.py, from any state whose stored
selection is the key that the clicked nick resolves to, the click
callback clears the selection — `None`, label `Nenhuma`, picker disabled
and emptied — and the schedule is untouched. -/
theorem app_toggle_deselects (st : AppState) (nick : String) (i : Nat)
    (t : Task)
    (hfind : findWithIndex (fun u => u.nick == nick) st.ganttData
      = some (i, t))
    (hsel : st.selectedTask = some i) :
    App.store_selected_task (some nick) st.ganttData st.selectedTask
      = some (none, "Nenhuma", true, DateValue.null) ∧
    (App.stepClick st (some nick)).selectedTask = none ∧
    (App.stepClick st (some nick)).selectedLabel = "Nenhuma" ∧
    (App.stepClick st (some nick)).pickerDisabled = true ∧
    (App.stepClick st (some nick)).pickerDate = DateValue.null ∧
    (App.stepClick st (some nick)).ganttData = st.ganttData := by
  have hstore : App.store_selected_task (some nick) st.ganttData
      st.selectedTask = some (none, "Nenhuma", true, DateValue.null) := by
    simp [App.store_selected_task, hfind, hsel]
  refine ⟨hstore, ?_, ?_, ?_, ?_, ?_⟩ <;>
    simp [App.stepClick, hstore, App.applyUpdate, update_task_dates]

/-- Witness for C4's amended claim: `Tarefa A` is selected and clicked
again in the fallback schedule. -/
theorem app_toggle_deselects_witness :
    App.store_selected_task (some "Tarefa A") toggle_state.ganttData
        toggle_state.selectedTask
      = some (none, "Nenhuma", true, DateValue.null) ∧
    (App.stepClick toggle_state (some "Tarefa A")).selectedTask = none ∧
    (App.stepClick toggle_state (some "Tarefa A")).selectedLabel
      = "Nenhuma" ∧
    (App.stepClick toggle_state (some "Tarefa A")).pickerDisabled = true ∧
    (App.stepClick toggle_state (some "Tarefa A")).pickerDate
      = DateValue.null ∧
    (App.stepClick toggle_state (some "Tarefa A")).ganttData
      = toggle_state.ganttData :=
  app_toggle_deselects toggle_state "Tarefa A" 0 taskA_example
    (by decide) (by decide)

/-- C4 (counterexample): in main.py the click callback has no toggle —
with `Tarefa A` (key 0) already selected, clicking the bar that resolves
to key 0 leaves the selection at `some 0`, the label at the quoted nick
and the picker enabled, instead of transitioning to Unselected. -/
theorem toggle_claim_false_on_main :
    main_toggle_state.selectedTask = some 0 ∧
    findWithIndex (fun u => u.nick == "Tarefa A") main_toggle_state.ganttData
      = some (0, taskA_example) ∧
    (Main.stepClick main_toggle_state (some "Tarefa A")).selectedTask
      = some 0 ∧
    (Main.stepClick main_toggle_state (some "Tarefa A")).selectedLabel
      = "\x27Tarefa A\x27" ∧
    (Main.stepClick main_toggle_state (some "Tarefa A")).pickerDisabled
      = false ∧
    (Main.stepClick main_toggle_state (some "Tarefa A")).pickerDate
      = DateValue.valid 20301 := by
  decide

/-- C6: the loader accepts — returning exactly the selected rows — iff
the table is non-empty and every row has `Mês Início ≤ Mês Fim`; with a
violating row present it reports precisely the offending rows, each
tagged with its 1-based CSV line number accounting for the header, i.e.
DataFrame index + 2. -/
theorem load_schedule_data_spec (rows : List RawTask) :
    ((∃ v, load_schedule_data rows = LoadResult.ok v) ↔
      rows ≠ [] ∧ ∀ r ∈ rows, r.mesInicio ≤ r.mesFim) ∧
    (∀ v, load_schedule_data rows = LoadResult.ok v → v = rows) ∧
    ((rows ≠ [] ∧ ∃ r ∈ rows, r.mesFim < r.mesInicio) →
      ∃ bad, load_schedule_data rows = LoadResult.invalidRange bad) ∧
    (∀ bad, load_schedule_data rows = LoadResult.invalidRange bad →
      ∀ x, x ∈ bad ↔
        ∃ j r, rows.get? j = some r ∧ r.mesFim < r.mesInicio ∧
          x = (j + 2, r.item, r.mesInicio, r.mesFim)) := by
  by_cases hemp : rows.isEmpty
  · obtain rfl : rows = [] := List.isEmpty_iff.mp hemp
    refine ⟨?_, ?_, ?_, ?_⟩
    · simp [load_schedule_data]
    · simp [load_schedule_data]
    · rintro ⟨h, -⟩; exact absurd rfl h
    · intro bad hbad
      simp [load_schedule_data] at hbad
  · have hne : rows ≠ [] := by
      intro h; rw [h] at hemp; exact hemp rfl
    by_cases hall : rows.all (fun r => decide (r.mesInicio ≤ r.mesFim))
    · have hok : load_schedule_data rows = LoadResult.ok rows := by
        simp [load_schedule_data, hemp, hall]
      have hfa : ∀ r ∈ rows, r.mesInicio ≤ r.mesFim := by
        intro r hr
        simpa using List.all_eq_true.mp hall r hr
      refine ⟨?_, ?_, ?_, ?_⟩
      · exact ⟨fun _ => ⟨hne, hfa⟩, fun _ => ⟨rows, hok⟩⟩
      · intro v hv
        rw [hok] at hv
        exact (LoadResult.ok.inj hv).symm
      · rintro ⟨-, r, hr, hbadr⟩
        exact absurd (hfa r hr) (not_le.mpr hbadr)
      · intro bad hbad
        rw [hok] at hbad
        exact absurd hbad (by simp)
    · have hinv : load_schedule_data rows
          = LoadResult.invalidRange (invalid_rows_from 0 rows) := by
        simp [load_schedule_data, hemp, hall]
      have hnotall : ¬ ∀ r ∈ rows, r.mesInicio ≤ r.mesFim := by
        intro hfa
        exact hall (List.all_eq_true.mpr (fun r hr => by simpa using hfa r hr))
      refine ⟨?_, ?_, ?_, ?_⟩
      · constructor
        · rintro ⟨v, hv⟩
          rw [hinv] at hv
          exact absurd hv (by simp)
        · rintro ⟨-, hfa⟩
          exact absurd hfa hnotall
      · intro v hv
        rw [hinv] at hv
        exact absurd hv (by simp)
      · rintro -
        exact ⟨_, hinv⟩
      · intro bad hbad
        rw [hinv] at hbad
        obtain rfl : invalid_rows_from 0 rows = bad := by
          simpa using hbad
        intro x
        simpa using invalid_rows_from_mem 0 rows x

/-- Witness for C6: the fallback table is accepted, and a table whose
rows 0 and 2 violate the range check is rejected reporting CSV lines 2
and 4. -/
theorem load_schedule_data_spec_witness :
    (∃ v, load_schedule_data fallback_raw = LoadResult.ok v) ∧
    (∃ bad, load_schedule_data bad_raw = LoadResult.invalidRange bad) :=
  ⟨(load_schedule_data_spec fallback_raw).1.mpr ⟨by decide, by decide⟩,
   (load_schedule_data_spec bad_raw).2.2.1 ⟨by decide, by decide⟩⟩

/-- C10: in any schedule state whose rows satisfy
`Data Término = Data Início + Duracao` (true of every reachable state,
the third conjunct), moving a task to its own current `Data Início` is
the identity on the schedule; consequently the write-back a click
triggers — the picker being loaded with the selected task's current
start date, which fires `update_task_dates` — never alters any task's
dates. -/
theorem selection_writeback_identity :
    (∀ (sched : List Task) (i : Nat) (hi : i < sched.length)
        (dv : DateValue),
      (∀ t ∈ sched, t.dataTermino = t.dataInicio + t.duracao) →
      pd_to_datetime dv = some ((sched.get ⟨i, hi⟩).dataInicio) →
      update_task_dates dv (some i) sched = some sched) ∧
    (∀ (st : AppState) (cd : Option String),
      (∀ t ∈ st.ganttData, t.dataTermino = t.dataInicio + t.duracao) →
      (App.stepClick st cd).ganttData = st.ganttData) ∧
    (∀ (raw : List RawTask) (base : Int) (evs : List Event),
      ∀ t ∈ (App.runEvents (App.initialState raw base) evs).ganttData,
        t.dataTermino = t.dataInicio + t.duracao) := by
  refine ⟨fun sched i hi dv hc hp =>
    move_to_current_start_identity sched i hi dv hc hp, ?_, ?_⟩
  · intro st cd hc
    cases cd with
    | none =>
      simp [App.stepClick, App.store_selected_task, App.applyUpdate,
        update_task_dates]
    | some nick =>
      cases hf : findWithIndex (fun u => u.nick == nick) st.ganttData with
      | none => simp [App.stepClick, App.store_selected_task, hf]
      | some p =>
        obtain ⟨i, t⟩ := p
        obtain ⟨hget, -⟩ := findWithIndex_spec hf
        have hi : i < st.ganttData.length := by
          rw [List.get?_eq_getElem?] at hget
          exact (List.getElem?_eq_some_iff.mp hget).1
        have ht : st.ganttData.get ⟨i, hi⟩ = t := by
          rw [List.get?_eq_getElem?, List.getElem?_eq_getElem hi] at hget
          simpa [List.get_eq_getElem] using Option.some_injective _ hget
        by_cases hcur : st.selectedTask = some i
        · simp [App.stepClick, App.store_selected_task, hf, hcur,
            App.applyUpdate, update_task_dates]
        · have hid : update_task_dates (DateValue.valid t.dataInicio)
              (some i) st.ganttData = some st.ganttData :=
            move_to_current_start_identity st.ganttData i hi
              (DateValue.valid t.dataInicio) hc
              (by rw [ht]; rfl)
          simp [App.stepClick, App.store_selected_task, hf, hcur,
            App.applyUpdate, hid]
  · intro raw base evs
    exact (runEvents_consistent (App.initialState raw base) evs
      (by simpa [App.initialState] using calcular_datas_consistent raw base)
      (by simpa [App.initialState] using calcular_datas_consistent raw base)).1

/-- Witness for C10: moving `Tarefa A` to its current start (day 20301)
leaves the fallback schedule unchanged, and a click on `Tarefa B` from
the freshly loaded state leaves the stored schedule unchanged. -/
theorem selection_writeback_identity_witness :
    update_task_dates (DateValue.valid 20301) (some 0) fallback_sched
      = some fallback_sched ∧
    (App.stepClick (App.initialState fallback_raw ordem_de_servico)
        (some "Tarefa B")).ganttData
      = (App.initialState fallback_raw ordem_de_servico).ganttData :=
  ⟨selection_writeback_identity.1 fallback_sched 0 (by decide)
      (DateValue.valid 20301) (by decide) (by decide),
   selection_writeback_identity.2.1 _ (some "Tarefa B") (by decide)⟩

/-- C9 (amended, app.py side): app.py's renderer is per-bar.  With no
truthy resolved selection every bar of every trace is drawn at full
opacity with the thin neutral border (a missing/stale selection resolves
to no selection); with a selected task of non-empty nick and project and
nicks unique in the schedule, every bar is dimmed except the single bar
carrying the selected task's nick inside the trace named after its
project, which gets full opacity, line width 5 and a border in its own
trace's marker color. -/
theorem app_highlight_per_bar (sched : List Task)
    (palette : String → String) :
    (∀ sel : Option Nat,
      sel = none ∨ (∃ i, sel = some i ∧ sched.get? i = none) →
      App.selectionDetails sched sel = (none, none)) ∧
    (∀ sel : Option Nat,
      truthyStr (App.selectionDetails sched sel).1 = false ∨
        truthyStr (App.selectionDetails sched sel).2 = false →
      ∀ ti tr,
        (makeTraces (sortByItemDesc sched) palette).get? ti = some tr →
        (App.update_gantt_chart_styles sched sel palette).get? ti =
          some (some
            { opacities := List.replicate tr.y.length default_opacity,
              lineWidths := List.replicate tr.y.length default_line_width,
              lineColors := List.replicate tr.y.length neutral_border })) ∧
    (∀ (i : Nat) (t : Task), sched.get? i = some t →
      t.nick ≠ "" → t.projetos ≠ "" →
      (sched.map (fun u => u.nick)).Nodup →
      (∀ ti tr,
        (makeTraces (sortByItemDesc sched) palette).get? ti = some tr →
        ∃ s, (App.update_gantt_chart_styles sched (some i) palette).get? ti
            = some (some s) ∧
          s.opacities.length = tr.y.length ∧
          s.lineWidths.length = tr.y.length ∧
          s.lineColors.length = tr.y.length ∧
          (∀ j, j < tr.y.length →
            (tr.name = t.projetos ∧ tr.y.get? j = some t.nick →
              s.opacities.get? j = some default_opacity ∧
              s.lineWidths.get? j = some 5 ∧
              s.lineColors.get? j = some tr.markerColor) ∧
            (¬(tr.name = t.projetos ∧ tr.y.get? j = some t.nick) →
              s.opacities.get? j = some dimmed_opacity ∧
              s.lineWidths.get? j = some default_line_width ∧
              s.lineColors.get? j = some neutral_border))) ∧
      (∃ ti tr j,
        (makeTraces (sortByItemDesc sched) palette).get? ti = some tr ∧
        tr.name = t.projetos ∧ tr.y.get? j = some t.nick) ∧
      (∀ ti ti' tr tr' j j',
        (makeTraces (sortByItemDesc sched) palette).get? ti = some tr →
        (makeTraces (sortByItemDesc sched) palette).get? ti' = some tr' →
        tr.name = t.projetos → tr'.name = t.projetos →
        tr.y.get? j = some t.nick → tr'.y.get? j' = some t.nick →
        ti = ti' ∧ j = j')) := by
  refine ⟨?_, ?_, ?_⟩
  · rintro sel (rfl | ⟨i, rfl, hno⟩)
    · rfl
    · rw [List.get?_eq_getElem?] at hno
      simp [App.selectionDetails, hno]
  · intro sel hfalse ti tr htr
    have hy := makeTraces_y_ne_nil htr
    have hstyle := styleTrace_inactive (App.selectionDetails sched sel).1
      (App.selectionDetails sched sel).2 hfalse tr hy
    have hmap : (App.update_gantt_chart_styles sched sel palette).get? ti
        = Option.map (App.styleTrace (App.selectionDetails sched sel).1
            (App.selectionDetails sched sel).2)
          ((makeTraces (sortByItemDesc sched) palette).get? ti) := by
      simp [App.update_gantt_chart_styles, List.get?_map]
    rw [hmap, htr, Option.map_some', hstyle]
  · intro i t hget hn hp hnn
    have hperm : (sortByItemDesc sched).Perm sched :=
      sortByItemDesc_perm sched
    have hnn' : ((sortByItemDesc sched).map (fun u => u.nick)).Nodup :=
      ((hperm.map (fun u => u.nick)).nodup_iff).mpr hnn
    have htmem : t ∈ sortByItemDesc sched :=
      hperm.mem_iff.mpr (List.get?_mem hget)
    have hdetails : App.selectionDetails sched (some i)
        = (some t.nick, some t.projetos) := by
      have hget' : sched[i]? = some t := by
        rw [← List.get?_eq_getElem?]; exact hget
      simp [App.selectionDetails, hget']
    have hmap : ∀ ti,
        (App.update_gantt_chart_styles sched (some i) palette).get? ti
        = Option.map (App.styleTrace (some t.nick) (some t.projetos))
          ((makeTraces (sortByItemDesc sched) palette).get? ti) := by
      intro ti
      simp [App.update_gantt_chart_styles, List.get?_map, hdetails]
    refine ⟨?_, ?_, ?_⟩
    · intro ti tr htr
      have hy0 := makeTraces_y_ne_nil htr
      obtain ⟨p, hpord, htr_eq⟩ := (makeTraces_get? _ _ _ _).mp htr
      have hy_eq : tr.y = ((sortByItemDesc sched).filter
          (fun u => decide (u.projetos = p))).map (fun u => u.nick) := by
        rw [htr_eq]
      have hynodup : tr.y.Nodup := by
        rw [hy_eq]
        exact List.Nodup.sublist ((List.filter_sublist _).map _) hnn'
      have hstyle := styleTrace_active t.nick t.projetos hn hp tr hy0
      by_cases hc : tr.name = t.projetos ∧ t.nick ∈ tr.y
      · rw [if_pos hc] at hstyle
        have hjlt : tr.y.indexOf t.nick < tr.y.length :=
          List.indexOf_lt_length.mpr hc.2
        have hjget : tr.y.get? (tr.y.indexOf t.nick) = some t.nick := by
          rw [List.get?_eq_getElem?, List.getElem?_eq_getElem hjlt]
          exact congrArg some
            (by simpa [List.get_eq_getElem] using List.indexOf_get hjlt)
        refine ⟨_, by rw [hmap ti, htr, Option.map_some', hstyle],
          by simp, by simp, by simp, ?_⟩
        intro j hj
        constructor
        · rintro ⟨-, hjy⟩
          have hjeq : j = tr.y.indexOf t.nick :=
            List.get?_inj hj hynodup (by rw [hjy, hjget])
          subst hjeq
          exact ⟨replicate_set_get?_self _ _ _ _ hjlt,
            replicate_set_get?_self _ _ _ _ hjlt,
            replicate_set_get?_self _ _ _ _ hjlt⟩
        · intro hnot
          have hjne : tr.y.indexOf t.nick ≠ j := by
            intro hje
            exact hnot ⟨hc.1, by rw [← hje]; exact hjget⟩
          exact ⟨replicate_set_get?_ne _ _ _ _ _ hj hjne,
            replicate_set_get?_ne _ _ _ _ _ hj hjne,
            replicate_set_get?_ne _ _ _ _ _ hj hjne⟩
      · rw [if_neg hc] at hstyle
        refine ⟨_, by rw [hmap ti, htr, Option.map_some', hstyle],
          by simp, by simp, by simp, ?_⟩
        intro j hj
        constructor
        · rintro ⟨hcn, hjy⟩
          exact absurd ⟨hcn, List.get?_mem hjy⟩ hc
        · rintro -
          exact ⟨replicate_get?_lt _ _ _ hj, replicate_get?_lt _ _ _ hj,
            replicate_get?_lt _ _ _ hj⟩
    · have hpmem : t.projetos ∈ projectsInOrder (sortByItemDesc sched) :=
        mem_projectsInOrder.mpr ⟨t, htmem, rfl⟩
      obtain ⟨ti, hti, hgetp⟩ := List.mem_iff_getElem.mp hpmem
      have hpord : (projectsInOrder (sortByItemDesc sched)).get? ti
          = some t.projetos := by
        rw [List.get?_eq_getElem?, List.getElem?_eq_getElem hti, hgetp]
      have htr := (makeTraces_get? (sortByItemDesc sched) palette ti
        { name := t.projetos,
          y := ((sortByItemDesc sched).filter
            (fun u => decide (u.projetos = t.projetos))).map
            (fun u => u.nick),
          markerColor := palette t.projetos }).mpr ⟨t.projetos, hpord, rfl⟩
      have hnmem : t.nick ∈ ((sortByItemDesc sched).filter
          (fun u => decide (u.projetos = t.projetos))).map
          (fun u => u.nick) :=
        List.mem_map_of_mem _ (List.mem_filter.mpr ⟨htmem, by simp⟩)
      obtain ⟨j, hjlt, hjget⟩ := List.mem_iff_getElem.mp hnmem
      refine ⟨ti, _, j, htr, rfl, ?_⟩
      have hy : (((sortByItemDesc sched).filter
          (fun u => decide (u.projetos = t.projetos))).map
          (fun u => u.nick)).get? j = some t.nick := by
        rw [List.get?_eq_getElem?, List.getElem?_eq_getElem hjlt, hjget]
      exact hy
    · intro ti ti' tr tr' j j' htr htr' hname hname' hjy hjy'
      obtain ⟨p, hpord, hpeq⟩ := (makeTraces_get? _ _ _ _).mp htr
      obtain ⟨p', hpord', hpeq'⟩ := (makeTraces_get? _ _ _ _).mp htr'
      have hp1 : p = t.projetos := by rw [← hname, hpeq]
      have hp2 : p' = t.projetos := by rw [← hname', hpeq']
      have hti_lt : ti < (projectsInOrder (sortByItemDesc sched)).length := by
        rw [List.get?_eq_getElem?] at hpord
        exact (List.getElem?_eq_some_iff.mp hpord).1
      have hteq : ti = ti' := by
        apply List.get?_inj hti_lt (nodup_firstOccurrences _)
        rw [hpord, hpord', hp1, hp2]
      subst hteq
      have htreq : tr = tr' := by
        rw [htr] at htr'
        exact Option.some_injective _ htr'
      subst htreq
      have hynodup : tr.y.Nodup := by
        rw [hpeq]
        exact List.Nodup.sublist ((List.filter_sublist _).map _) hnn'
      have hj_lt : j < tr.y.length := by
        rw [List.get?_eq_getElem?] at hjy
        exact (List.getElem?_eq_some_iff.mp hjy).1
      have hjeq : j = j' := List.get?_inj hj_lt hynodup (by rw [hjy, hjy'])
      exact ⟨rfl, hjeq⟩

/-- Witness for C9's amended claim on the fallback schedule: a cleared
selection resolves to none and styles the first trace with defaults, and
with `Tarefa A` selected the bar carrying its nick exists in the
`Projeto 1` trace. -/
theorem app_highlight_per_bar_witness :
    App.selectionDetails fallback_sched none = (none, none) ∧
    (App.update_gantt_chart_styles fallback_sched none
        (fun _ => "blue")).get? 0
      = some (some
          { opacities := List.replicate 1 default_opacity,
            lineWidths := List.replicate 1 default_line_width,
            lineColors := List.replicate 1 neutral_border }) ∧
    (∃ ti tr j,
      (makeTraces (sortByItemDesc fallback_sched)
        (fun _ => "blue")).get? ti = some tr ∧
      tr.name = taskA_example.projetos ∧
      tr.y.get? j = some taskA_example.nick) :=
  ⟨(app_highlight_per_bar fallback_sched (fun _ => "blue")).1 none
      (Or.inl rfl),
   (app_highlight_per_bar fallback_sched (fun _ => "blue")).2.1 none
      (Or.inl (by decide)) 0
      { name := "Projeto 2", y := ["Tarefa C"], markerColor := "blue" }
      (by decide),
   ((app_highlight_per_bar fallback_sched (fun _ => "blue")).2.2 0
      taskA_example (by decide) (by decide) (by decide) (by decide)).2.1⟩

/-- C9 (counterexample): main.py's highlight is per project trace, not
per bar.  In the fallback schedule `Tarefa A` and `Tarefa B` share
`Projeto 1`; selecting `Tarefa A` stores `Projeto 1` and the renderer
draws the whole `Projeto 1` trace — including the non-selected
`Tarefa B` bar — at opacity 1, with only the `Projeto 2` trace reduced
to 0.3 and no border change at all, contradicting "every bar at a fixed
reduced opacity except the single bar matching the selected task's
key". -/
theorem highlight_claim_false_on_main :
    Main.store_selected_task (some "Tarefa A") fallback_sched
      = some (some 0, "\x27Tarefa A\x27", false, DateValue.valid 20301,
          some "Projeto 1") ∧
    (makeTraces (sortByItemDesc fallback_sched) (fun _ => "blue")).map
        (fun tr => tr.y)
      = [["Tarefa C"], ["Tarefa B", "Tarefa A"]] ∧
    Main.update_gantt_chart_opacities fallback_sched (some "Projeto 1")
      (fun _ => "blue") = [3 / 10, 1] :=
  ⟨by decide, by decide, rfl⟩

end Gantt
